import Mathlib

/-!
Shallow embedding of the cascading preference store implemented in
src/cpp/session/prefs/Preferences.cpp (class Preferences): an ordered stack
of preference layers, aggregated reads, and the cascade-minimizing write
algorithm.  Machine-level details that matter are kept: the descending scan
in writeLayer iterates a size_t counter, so when no lower layer defines a
key the counter wraps past zero and the vector is indexed out of bounds;
that undefined behavior is modelled as the value none of an Option.
-/

/-- Structured JSON-like preference values (core::json::Value): scalars,
strings, arrays and nested objects.  Equality is structural, matching the
operator == used on json::Value in writeLayer. -/
inductive JsonValue where
  | null : JsonValue
  | bool (b : Bool) : JsonValue
  | num (n : Int) : JsonValue
  | str (s : String) : JsonValue
  | arr (elems : List JsonValue) : JsonValue
  | obj (fields : List (String × JsonValue)) : JsonValue

mutual

/-- Decidable structural equality on values, the model of json::Value
operator == used by the writeLayer comparison. -/
def jsonDecEq : (a b : JsonValue) → Decidable (a = b)
  | JsonValue.null, JsonValue.null => isTrue rfl
  | JsonValue.null, JsonValue.bool _ => isFalse (fun h => JsonValue.noConfusion h)
  | JsonValue.null, JsonValue.num _ => isFalse (fun h => JsonValue.noConfusion h)
  | JsonValue.null, JsonValue.str _ => isFalse (fun h => JsonValue.noConfusion h)
  | JsonValue.null, JsonValue.arr _ => isFalse (fun h => JsonValue.noConfusion h)
  | JsonValue.null, JsonValue.obj _ => isFalse (fun h => JsonValue.noConfusion h)
  | JsonValue.bool _, JsonValue.null => isFalse (fun h => JsonValue.noConfusion h)
  | JsonValue.bool a, JsonValue.bool b =>
    if h : a = b then isTrue (by rw [h])
    else isFalse (by intro hh; injection hh with h2; exact h h2)
  | JsonValue.bool _, JsonValue.num _ => isFalse (fun h => JsonValue.noConfusion h)
  | JsonValue.bool _, JsonValue.str _ => isFalse (fun h => JsonValue.noConfusion h)
  | JsonValue.bool _, JsonValue.arr _ => isFalse (fun h => JsonValue.noConfusion h)
  | JsonValue.bool _, JsonValue.obj _ => isFalse (fun h => JsonValue.noConfusion h)
  | JsonValue.num _, JsonValue.null => isFalse (fun h => JsonValue.noConfusion h)
  | JsonValue.num _, JsonValue.bool _ => isFalse (fun h => JsonValue.noConfusion h)
  | JsonValue.num a, JsonValue.num b =>
    if h : a = b then isTrue (by rw [h])
    else isFalse (by intro hh; injection hh with h2; exact h h2)
  | JsonValue.num _, JsonValue.str _ => isFalse (fun h => JsonValue.noConfusion h)
  | JsonValue.num _, JsonValue.arr _ => isFalse (fun h => JsonValue.noConfusion h)
  | JsonValue.num _, JsonValue.obj _ => isFalse (fun h => JsonValue.noConfusion h)
  | JsonValue.str _, JsonValue.null => isFalse (fun h => JsonValue.noConfusion h)
  | JsonValue.str _, JsonValue.bool _ => isFalse (fun h => JsonValue.noConfusion h)
  | JsonValue.str _, JsonValue.num _ => isFalse (fun h => JsonValue.noConfusion h)
  | JsonValue.str a, JsonValue.str b =>
    if h : a = b then isTrue (by rw [h])
    else isFalse (by intro hh; injection hh with h2; exact h h2)
  | JsonValue.str _, JsonValue.arr _ => isFalse (fun h => JsonValue.noConfusion h)
  | JsonValue.str _, JsonValue.obj _ => isFalse (fun h => JsonValue.noConfusion h)
  | JsonValue.arr _, JsonValue.null => isFalse (fun h => JsonValue.noConfusion h)
  | JsonValue.arr _, JsonValue.bool _ => isFalse (fun h => JsonValue.noConfusion h)
  | JsonValue.arr _, JsonValue.num _ => isFalse (fun h => JsonValue.noConfusion h)
  | JsonValue.arr _, JsonValue.str _ => isFalse (fun h => JsonValue.noConfusion h)
  | JsonValue.arr xs, JsonValue.arr ys =>
    match jsonArrDecEq xs ys with
    | isTrue h => isTrue (by rw [h])
    | isFalse h => isFalse (by intro hh; injection hh with h2; exact h h2)
  | JsonValue.arr _, JsonValue.obj _ => isFalse (fun h => JsonValue.noConfusion h)
  | JsonValue.obj _, JsonValue.null => isFalse (fun h => JsonValue.noConfusion h)
  | JsonValue.obj _, JsonValue.bool _ => isFalse (fun h => JsonValue.noConfusion h)
  | JsonValue.obj _, JsonValue.num _ => isFalse (fun h => JsonValue.noConfusion h)
  | JsonValue.obj _, JsonValue.str _ => isFalse (fun h => JsonValue.noConfusion h)
  | JsonValue.obj _, JsonValue.arr _ => isFalse (fun h => JsonValue.noConfusion h)
  | JsonValue.obj xs, JsonValue.obj ys =>
    match jsonObjDecEq xs ys with
    | isTrue h => isTrue (by rw [h])
    | isFalse h => isFalse (by intro hh; injection hh with h2; exact h h2)
termination_by structural a _ => a

/-- Decidable elementwise equality of value arrays. -/
def jsonArrDecEq : (a b : List JsonValue) → Decidable (a = b)
  | [], [] => isTrue rfl
  | [], _ :: _ => isFalse (fun h => List.noConfusion h)
  | _ :: _, [] => isFalse (fun h => List.noConfusion h)
  | x :: xs, y :: ys =>
    match jsonDecEq x y with
    | isFalse h => isFalse (by intro hh; injection hh with h1 h2; exact h h1)
    | isTrue h1 =>
      match jsonArrDecEq xs ys with
      | isTrue h2 => isTrue (by rw [h1, h2])
      | isFalse h2 => isFalse (by intro hh; injection hh with g1 g2; exact h2 g2)
termination_by structural a _ => a

/-- Decidable fieldwise equality of object field lists. -/
def jsonObjDecEq : (a b : List (String × JsonValue)) → Decidable (a = b)
  | [], [] => isTrue rfl
  | [], _ :: _ => isFalse (fun h => List.noConfusion h)
  | _ :: _, [] => isFalse (fun h => List.noConfusion h)
  | (k, v) :: xs, (l, w) :: ys =>
    if hk : k = l then
      match jsonDecEq v w with
      | isFalse h => isFalse (by
          intro hh; injection hh with h1 h2
          exact h (congrArg Prod.snd h1))
      | isTrue h1 =>
        match jsonObjDecEq xs ys with
        | isTrue h2 => isTrue (by rw [hk, h1, h2])
        | isFalse h2 => isFalse (by intro hh; injection hh with g1 g2; exact h2 g2)
    else
      isFalse (by
        intro hh; injection hh with h1 h2
        exact hk (congrArg Prod.fst h1))
termination_by structural a _ => a

end

instance : DecidableEq JsonValue := jsonDecEq

/-- Errors surfaced by the preference system: invalid layer index
(systemError invalid_argument in writeLayer) and storage or validation
failures reported by individual layers. -/
inductive PrefError where
  | invalidArgument : PrefError
  | ioError (msg : String) : PrefError
  | validationError (msg : String) : PrefError
deriving DecidableEq

instance {ε α : Type} [DecidableEq ε] [DecidableEq α] : DecidableEq (Except ε α) :=
  fun a b =>
    match a, b with
    | Except.error e, Except.error f =>
      if h : e = f then isTrue (by rw [h])
      else isFalse (by intro hh; injection hh with h2; exact h h2)
    | Except.error _, Except.ok _ => isFalse (fun h => Except.noConfusion h)
    | Except.ok _, Except.error _ => isFalse (fun h => Except.noConfusion h)
    | Except.ok x, Except.ok y =>
      if h : x = y then isTrue (by rw [h])
      else isFalse (by intro hh; injection hh with h2; exact h h2)

/-- One preference layer.  The field content is the key-to-value mapping the
layer currently stores; readError, validateError and writeError are the
results its external backend returns from readPrefs, validatePrefs and
writePrefs (none meaning success).  The backends themselves are outside the
source fragment; only this interface is used by Preferences.cpp. -/
structure PrefLayer where
  content : List (String × JsonValue)
  readError : Option PrefError
  validateError : Option PrefError
  writeError : Option PrefError
deriving DecidableEq

/-- A layer with no content whose operations all succeed; used only as the
default of List.getD at indices already known to be in bounds. -/
def emptyLayer : PrefLayer := ⟨[], none, none, none⟩

instance : Inhabited PrefLayer := ⟨emptyLayer⟩

/-- First value stored for a key in an association list, scanning left to
right; none if the key is absent. -/
def lookupPref : List (String × JsonValue) → String → Option JsonValue
  | [], _ => none
  | (k, v) :: rest, name => if k = name then some v else lookupPref rest name

/-- Modelled from the spec: Layer.readValue is implemented by the external
layer backends, not in this fragment.  Per the Layer contract it returns the
stored value of this layer alone for the given name, or absent. -/
def PrefLayer.readValue (l : PrefLayer) (name : String) : Option JsonValue :=
  lookupPref l.content name

/-- The value layers_[i]->readValue(name) read by the scan at stack index i
(none both for a key the layer does not define and for an index outside the
stack, though writeLayer only reaches in-bounds indices before the wrap). -/
def readValueAt (stack : List PrefLayer) (i : Nat) (name : String) : Option JsonValue :=
  match stack.get? i with
  | some l => l.readValue name
  | none => none

/-- The descending lower-layer scan of writeLayer, started at index start
(the C++ loop for size_t i = layer - 1; i >= 0; --i).  Returns some v when
the loop breaks at the first layer, counting down, that defines name.  When
no layer at start, start-1, ..., 0 defines name, the loop does not stop:
i >= 0 always holds for the unsigned counter, so after i = 0 it wraps to
SIZE_MAX and reads layers_ out of bounds; that undefined behavior is the
result none. -/
def scanLower (stack : List PrefLayer) (name : String) : Nat → Option JsonValue
  | 0 => readValueAt stack 0 name
  | i + 1 =>
    match readValueAt stack (i + 1) name with
    | some v => some v
    | none => scanLower stack name i

/-- The minimized unique set writeLayer builds from proposedPrefs: a pair is
kept exactly when the scan finds a structurally different value below.  The
result is none when any scan hits the unsigned wraparound (no lower layer
defines that key), in which case the loop body never completes. -/
def computeUnique (stack : List PrefLayer) (layer : Nat) :
    List (String × JsonValue) → Option (List (String × JsonValue))
  | [] => some []
  | (name, value) :: rest =>
    match scanLower stack name (layer - 1) with
    | none => none
    | some w =>
      match computeUnique stack layer rest with
      | none => none
      | some u => if w = value then some u else some ((name, value) :: u)

/-- Modelled from the spec: Layer.writePrefs is implemented by the external
layer backends, not in this fragment.  Per the Layer contract it atomically
adds or updates the given minimized key-value set in the layer content
(stale keys are not removed by this path), or returns the backend error with
the content untouched. -/
def setPref : List (String × JsonValue) → String → JsonValue → List (String × JsonValue)
  | [], name, value => [(name, value)]
  | (k, v) :: rest, name, value =>
    if k = name then (name, value) :: rest else (k, v) :: setPref rest name value

/-- Apply every pair of an update set to a content list, in order, each pair
replacing the first stored binding of its key or appending a new one. -/
def mergePrefs (c : List (String × JsonValue)) :
    List (String × JsonValue) → List (String × JsonValue)
  | [] => c
  | (name, value) :: rest => mergePrefs (setPref c name value) rest

/-- Modelled from the spec: the persistence step of Layer.writePrefs.  A
failing backend returns its error and leaves the layer as it was (the write
is atomic); a succeeding one records the merged content. -/
def layerWritePrefs (l : PrefLayer) (values : List (String × JsonValue)) :
    Except PrefError PrefLayer :=
  match l.writeError with
  | some e => Except.error e
  | none => Except.ok { l with content := mergePrefs l.content values }

/-- What one call of Preferences::writeLayer did: the returned Error, the
layer stack afterwards, and the writePrefs invocations it issued as pairs of
target index and value set. -/
structure WriteOutcome where
  result : Except PrefError Unit
  layers : List PrefLayer
  writeCalls : List (Nat × List (String × JsonValue))
deriving DecidableEq

/-- Preferences::writeLayer.  Rejects index 0 and out-of-range indices with
invalid_argument before touching any layer; otherwise computes the unique
set and issues exactly one writePrefs call on the target layer, propagating
its error.  The result is none when the descending scan wraps (undefined
behavior, see scanLower). -/
def writeLayer (stack : List PrefLayer) (layer : Nat)
    (prefs : List (String × JsonValue)) : Option WriteOutcome :=
  if stack.length ≤ layer ∨ layer < 1 then
    some ⟨Except.error PrefError.invalidArgument, stack, []⟩
  else
    match computeUnique stack layer prefs with
    | none => none
    | some unique =>
      match layerWritePrefs (stack.getD layer emptyLayer) unique with
      | Except.error e => some ⟨Except.error e, stack, [(layer, unique)]⟩
      | Except.ok tgt => some ⟨Except.ok (), stack.set layer tgt, [(layer, unique)]⟩

/-- What Preferences::readLayers did: the stack indices whose readPrefs was
invoked in order, the per-layer errors that were logged, and the returned
Error. -/
structure ReadLayersOutcome where
  readCalls : List Nat
  logged : List PrefError
  result : Except PrefError Unit
deriving DecidableEq

/-- The loop of readLayers starting at stack index i: calls readPrefs on
every layer, logging any error and continuing. -/
def readLayersAux : List PrefLayer → Nat → List Nat × List PrefError
  | [], _ => ([], [])
  | l :: rest, i =>
    let (calls, logs) := readLayersAux rest (i + 1)
    (i :: calls,
      match l.readError with
      | some e => e :: logs
      | none => logs)

/-- Preferences::readLayers: reads every layer, logs failures, and returns
Success() unconditionally. -/
def readLayers (stack : List PrefLayer) : ReadLayersOutcome :=
  ⟨(readLayersAux stack 0).1, (readLayersAux stack 0).2, Except.ok ()⟩

/-- The validation sweep of Preferences::initialize: validatePrefs on every
layer, errors logged and iteration continuing. -/
def validateSweep (stack : List PrefLayer) : List PrefError :=
  stack.filterMap (fun l => l.validateError)

/-- Outcome of a successful initialization: the constructed layer stack and
everything that was logged along the way. -/
structure InitOutcome where
  layers : List PrefLayer
  logged : List PrefError
deriving DecidableEq

/-- Preferences::initialize, parameterized by the result of createLayers
(layer-stack construction is delegated to subclasses outside this
fragment).  A createLayers failure aborts and is returned; afterwards
readLayers and the validation sweep only log. -/
def initializePrefs (createLayersResult : Except PrefError (List PrefLayer)) :
    Except PrefError InitOutcome :=
  match createLayersResult with
  | Except.error e => Except.error e
  | Except.ok stack =>
    let ro := readLayers stack
    match ro.result with
    | Except.error e => Except.error e
    | Except.ok _ => Except.ok ⟨stack, ro.logged ++ validateSweep stack⟩

/-- Modelled from the spec: Layer.allPrefs, implemented by the external
backends, returns a document snapshot of the layer content. -/
def PrefLayer.allPrefs (l : PrefLayer) : JsonValue :=
  JsonValue.obj l.content

/-- Preferences::allLayers: pushes each layer snapshot onto a json::Array,
low index first. -/
def allLayers (stack : List PrefLayer) : List JsonValue :=
  stack.foldl (fun acc l => acc ++ [l.allPrefs]) []

/-- allLayers as a state-passing operation, making explicit that it returns
the snapshots and leaves the stack untouched. -/
def allLayersSt (stack : List PrefLayer) : List JsonValue × List PrefLayer :=
  (allLayers stack, stack)

/-- Stack index i defines the key name. -/
def definesAt (stack : List PrefLayer) (i : Nat) (name : String) : Prop :=
  (readValueAt stack i name).isSome

instance (stack : List PrefLayer) (i : Nat) (name : String) :
    Decidable (definesAt stack i name) := by
  unfold definesAt; infer_instance

theorem readValueAt_congr (stack1 stack2 : List PrefLayer) (i : Nat) (name : String)
    (h : stack1.get? i = stack2.get? i) :
    readValueAt stack1 i name = readValueAt stack2 i name := by
  simp only [readValueAt, h]

theorem scanLower_congr (stack1 stack2 : List PrefLayer) (name : String) :
    ∀ start : Nat, (∀ i, i ≤ start → stack1.get? i = stack2.get? i) →
      scanLower stack1 name start = scanLower stack2 name start
  | 0, h => by
    simp only [scanLower]
    exact readValueAt_congr stack1 stack2 0 name (h 0 (Nat.le_refl 0))
  | start + 1, h => by
    have hr := readValueAt_congr stack1 stack2 (start + 1) name
      (h (start + 1) (Nat.le_refl _))
    have ih := scanLower_congr stack1 stack2 name start
      (fun i hi => h i (Nat.le_succ_of_le hi))
    simp only [scanLower, hr]
    cases readValueAt stack2 (start + 1) name with
    | some v => rfl
    | none => exact ih

theorem scanLower_eq_of_nearest (stack : List PrefLayer) (name : String) (w : JsonValue) :
    ∀ start j : Nat, j ≤ start →
      readValueAt stack j name = some w →
      (∀ k, j < k → k ≤ start → readValueAt stack k name = none) →
      scanLower stack name start = some w
  | 0, j, hle, hj, _ => by
    have hj0 : j = 0 := Nat.le_zero.mp hle
    subst hj0
    simpa only [scanLower] using hj
  | start + 1, j, hle, hj, habove => by
    by_cases htop : j = start + 1
    · subst htop
      simp only [scanLower, hj]
    · have hlt : j ≤ start := Nat.lt_succ_iff.mp (Nat.lt_of_le_of_ne hle htop)
      have hnone : readValueAt stack (start + 1) name = none :=
        habove (start + 1) (Nat.lt_succ_of_le hlt) (Nat.le_refl _)
      simp only [scanLower, hnone]
      exact scanLower_eq_of_nearest stack name w start j hlt hj
        (fun k hk1 hk2 => habove k hk1 (Nat.le_succ_of_le hk2))

theorem computeUnique_mem (stack : List PrefLayer) (layer : Nat)
    (name : String) (value : JsonValue) :
    ∀ (prefs u : List (String × JsonValue)),
      computeUnique stack layer prefs = some u →
      ((name, value) ∈ u ↔ (name, value) ∈ prefs ∧
        ∃ w, scanLower stack name (layer - 1) = some w ∧ w ≠ value)
  | [], u, h => by
    simp only [computeUnique, Option.some.injEq] at h
    subst h
    simp
  | (n, v) :: rest, u, h => by
    simp only [computeUnique] at h
    cases hscan : scanLower stack n (layer - 1) with
    | none => rw [hscan] at h; cases h
    | some w =>
      rw [hscan] at h
      cases hrec : computeUnique stack layer rest with
      | none => rw [hrec] at h; cases h
      | some u0 =>
        rw [hrec] at h
        dsimp only at h
        have ih := computeUnique_mem stack layer name value rest u0 hrec
        by_cases hw : w = v
        · rw [if_pos hw] at h
          have hu : u = u0 := by injection h with h2; exact h2.symm
          subst hu
          constructor
          · intro hm
            obtain ⟨hmr, hex⟩ := ih.mp hm
            exact ⟨List.mem_cons_of_mem _ hmr, hex⟩
          · rintro ⟨hm, w2, hs2, hne⟩
            cases List.mem_cons.mp hm with
            | inl heq =>
              have hn : name = n := congrArg Prod.fst heq
              have hv : value = v := congrArg Prod.snd heq
              subst hn; subst hv
              rw [hscan] at hs2
              injection hs2 with hs2
              exact absurd (hw.symm ▸ hs2.symm : w2 = value) hne
            | inr hmr => exact ih.mpr ⟨hmr, w2, hs2, hne⟩
        · rw [if_neg hw] at h
          have hu : u = (n, v) :: u0 := by injection h with h2; exact h2.symm
          subst hu
          constructor
          · intro hm
            cases List.mem_cons.mp hm with
            | inl heq =>
              have hn : name = n := congrArg Prod.fst heq
              have hv : value = v := congrArg Prod.snd heq
              subst hn; subst hv
              exact ⟨List.mem_cons_self _ _, w, hscan, hw⟩
            | inr hmr =>
              obtain ⟨hmr2, hex⟩ := ih.mp hmr
              exact ⟨List.mem_cons_of_mem _ hmr2, hex⟩
          · rintro ⟨hm, w2, hs2, hne⟩
            cases List.mem_cons.mp hm with
            | inl heq => exact heq ▸ List.mem_cons_self _ _
            | inr hmr => exact List.mem_cons_of_mem _ (ih.mpr ⟨hmr, w2, hs2, hne⟩)

theorem computeUnique_sublist (stack : List PrefLayer) (layer : Nat) :
    ∀ (prefs u : List (String × JsonValue)),
      computeUnique stack layer prefs = some u → List.Sublist u prefs
  | [], u, h => by
    simp only [computeUnique, Option.some.injEq] at h
    subst h
    exact List.Sublist.refl []
  | (n, v) :: rest, u, h => by
    simp only [computeUnique] at h
    cases hscan : scanLower stack n (layer - 1) with
    | none => rw [hscan] at h; cases h
    | some w =>
      rw [hscan] at h
      cases hrec : computeUnique stack layer rest with
      | none => rw [hrec] at h; cases h
      | some u0 =>
        rw [hrec] at h
        dsimp only at h
        have ih := computeUnique_sublist stack layer rest u0 hrec
        by_cases hw : w = v
        · rw [if_pos hw] at h
          have hu : u = u0 := by injection h with h2; exact h2.symm
          subst hu
          exact ih.cons (n, v)
        · rw [if_neg hw] at h
          have hu : u = (n, v) :: u0 := by injection h with h2; exact h2.symm
          subst hu
          exact ih.cons₂ (n, v)

theorem computeUnique_congr (stack1 stack2 : List PrefLayer) (layer : Nat)
    (hlo : 1 ≤ layer)
    (hlow : ∀ i, i < layer → stack1.get? i = stack2.get? i) :
    ∀ prefs, computeUnique stack1 layer prefs = computeUnique stack2 layer prefs
  | [] => rfl
  | (n, v) :: rest => by
    have hs := scanLower_congr stack1 stack2 n (layer - 1)
      (fun i hi => hlow i (by omega))
    have ih := computeUnique_congr stack1 stack2 layer hlo hlow rest
    simp only [computeUnique, hs, ih]

theorem lookupPref_setPref_self (l : List (String × JsonValue)) (k : String) (v : JsonValue) :
    lookupPref (setPref l k v) k = some v := by
  induction l with
  | nil => simp [setPref, lookupPref]
  | cons p rest ih =>
    obtain ⟨a, b⟩ := p
    by_cases h : a = k
    · simp [setPref, lookupPref, h]
    · simp [setPref, lookupPref, h, ih]

theorem lookupPref_setPref_ne (l : List (String × JsonValue)) (k k2 : String)
    (v : JsonValue) (h : k2 ≠ k) :
    lookupPref (setPref l k2 v) k = lookupPref l k := by
  induction l with
  | nil => simp [setPref, lookupPref, h]
  | cons p rest ih =>
    obtain ⟨a, b⟩ := p
    by_cases ha : a = k2
    · subst ha
      simp [setPref, lookupPref, h]
    · simp only [setPref, if_neg ha, lookupPref, ih]

theorem setPref_eq_of_lookup (l : List (String × JsonValue)) (k : String)
    (v : JsonValue) (h : lookupPref l k = some v) : setPref l k v = l := by
  induction l with
  | nil => cases h
  | cons p rest ih =>
    obtain ⟨a, b⟩ := p
    by_cases ha : a = k
    · subst ha
      simp only [lookupPref] at h
      simp at h
      subst h
      simp [setPref]
    · simp only [lookupPref, if_neg ha] at h
      simp only [setPref, if_neg ha, ih h]

theorem mergePrefs_eq_of_lookup (us : List (String × JsonValue)) :
    ∀ c : List (String × JsonValue),
      (∀ p ∈ us, lookupPref c p.1 = some p.2) → mergePrefs c us = c := by
  induction us with
  | nil => intro c _; rfl
  | cons p rest ih =>
    intro c h
    obtain ⟨k, v⟩ := p
    have hc : setPref c k v = c := setPref_eq_of_lookup c k v (h (k, v) (List.mem_cons_self _ _))
    simp only [mergePrefs, hc]
    exact ih c (fun q hq => h q (List.mem_cons_of_mem _ hq))

theorem lookupPref_mergePrefs_not_mem (us : List (String × JsonValue)) (k : String) :
    ∀ c : List (String × JsonValue), (∀ p ∈ us, p.1 ≠ k) →
      lookupPref (mergePrefs c us) k = lookupPref c k := by
  induction us with
  | nil => intro c _; rfl
  | cons p rest ih =>
    intro c h
    obtain ⟨a, b⟩ := p
    simp only [mergePrefs]
    rw [ih (setPref c a b) (fun q hq => h q (List.mem_cons_of_mem _ hq))]
    exact lookupPref_setPref_ne c k a b (h (a, b) (List.mem_cons_self _ _))

theorem lookupPref_mergePrefs_mem (us : List (String × JsonValue)) (k : String)
    (v : JsonValue) :
    ∀ c : List (String × JsonValue), (us.map Prod.fst).Nodup → (k, v) ∈ us →
      lookupPref (mergePrefs c us) k = some v := by
  induction us with
  | nil => intro c _ hm; cases hm
  | cons p rest ih =>
    intro c hnd hm
    obtain ⟨a, b⟩ := p
    simp only [List.map_cons, List.nodup_cons] at hnd
    cases List.mem_cons.mp hm with
    | inl heq =>
      have hk : k = a := congrArg Prod.fst heq
      have hv : v = b := congrArg Prod.snd heq
      subst hk; subst hv
      simp only [mergePrefs]
      rw [lookupPref_mergePrefs_not_mem rest k (setPref c k v)
        (fun q hq hqk => hnd.1 (hqk ▸ List.mem_map_of_mem Prod.fst hq))]
      exact lookupPref_setPref_self c k v
    | inr hmr =>
      simp only [mergePrefs]
      exact ih (setPref c a b) hnd.2 hmr

theorem readLayersAux_spec (stack : List PrefLayer) :
    ∀ i : Nat,
      (readLayersAux stack i).1 = List.range' i stack.length ∧
      (readLayersAux stack i).2 = stack.filterMap (fun l => l.readError) := by
  induction stack with
  | nil => intro i; exact ⟨rfl, rfl⟩
  | cons l rest ih =>
    intro i
    have h := ih (i + 1)
    constructor
    · simp only [readLayersAux, List.length_cons, List.range'_succ, h.1]
    · simp only [readLayersAux, List.filterMap_cons, h.2]
      cases l.readError <;> rfl

theorem getD_set_self (stack : List PrefLayer) (layer : Nat) (t : PrefLayer)
    (h : layer < stack.length) :
    (stack.set layer t).getD layer emptyLayer = t := by
  rw [List.getD_eq_getD_get?, List.get?_eq_getElem?, List.getElem?_set_eq_of_lt t h]
  rfl

theorem get?_set_ne_of_lt (stack : List PrefLayer) (layer i : Nat) (t : PrefLayer)
    (h : i ≠ layer) :
    (stack.set layer t).get? i = stack.get? i := by
  rw [List.get?_eq_getElem?, List.get?_eq_getElem?,
    List.getElem?_set_ne (fun hh => h hh.symm)]

theorem writeLayer_ok_eq (stack : List PrefLayer) (layer : Nat)
    (prefs u : List (String × JsonValue))
    (hlo : 1 ≤ layer) (hhi : layer < stack.length)
    (hu : computeUnique stack layer prefs = some u)
    (hw : (stack.getD layer emptyLayer).writeError = none) :
    writeLayer stack layer prefs =
      some ⟨Except.ok (),
        stack.set layer
          { stack.getD layer emptyLayer with
            content := mergePrefs (stack.getD layer emptyLayer).content u },
        [(layer, u)]⟩ := by
  simp only [writeLayer]
  rw [if_neg (by rintro (hc | hc) <;> omega)]
  rw [hu]
  dsimp only
  simp only [layerWritePrefs, hw]

theorem writeLayer_err_eq (stack : List PrefLayer) (layer : Nat)
    (prefs u : List (String × JsonValue)) (e : PrefError)
    (hlo : 1 ≤ layer) (hhi : layer < stack.length)
    (hu : computeUnique stack layer prefs = some u)
    (hw : (stack.getD layer emptyLayer).writeError = some e) :
    writeLayer stack layer prefs = some ⟨Except.error e, stack, [(layer, u)]⟩ := by
  simp only [writeLayer]
  rw [if_neg (by rintro (hc | hc) <;> omega)]
  rw [hu]
  dsimp only
  simp only [layerWritePrefs, hw]

theorem writeLayer_none_eq (stack : List PrefLayer) (layer : Nat)
    (prefs : List (String × JsonValue))
    (hlo : 1 ≤ layer) (hhi : layer < stack.length)
    (hu : computeUnique stack layer prefs = none) :
    writeLayer stack layer prefs = none := by
  simp only [writeLayer]
  rw [if_neg (by rintro (hc | hc) <;> omega)]
  rw [hu]

theorem writeLayer_writeCalls_eq (stack : List PrefLayer) (layer : Nat)
    (prefs u : List (String × JsonValue))
    (hlo : 1 ≤ layer) (hhi : layer < stack.length)
    (hu : computeUnique stack layer prefs = some u) :
    Option.map (fun o => o.writeCalls) (writeLayer stack layer prefs) =
      some [(layer, u)] := by
  cases hw : (stack.getD layer emptyLayer).writeError with
  | none => rw [writeLayer_ok_eq stack layer prefs u hlo hhi hu hw]; rfl
  | some e => rw [writeLayer_err_eq stack layer prefs u e hlo hhi hu hw]; rfl

theorem foldl_push_allPrefs (stack : List PrefLayer) :
    ∀ acc : List JsonValue,
      stack.foldl (fun acc l => acc ++ [l.allPrefs]) acc =
        acc ++ stack.map PrefLayer.allPrefs := by
  induction stack with
  | nil => intro acc; simp
  | cons l rest ih =>
    intro acc
    simp only [List.foldl_cons, List.map_cons, ih, List.append_assoc,
      List.singleton_append]

/-- Claim C1: for a valid target index and a proposed pair whose key is
defined by some lower layer, writeLayer passes the minimized set to a single
writePrefs call on the target, and the pair is included in that set exactly
when the value stored by the nearest defining lower layer (the first one
found scanning down from layerIndex - 1) differs structurally from the
proposed value. -/
theorem writeLayer_includes_iff_nearest_lower_differs
    (stack : List PrefLayer) (layer j : Nat)
    (prefs u : List (String × JsonValue)) (name : String) (value w : JsonValue)
    (hlo : 1 ≤ layer) (hhi : layer < stack.length)
    (hmem : (name, value) ∈ prefs)
    (hj : j < layer)
    (hjdef : readValueAt stack j name = some w)
    (hnearest : ∀ k, j < k → k < layer → readValueAt stack k name = none)
    (hu : computeUnique stack layer prefs = some u) :
    (Option.map (fun o => o.writeCalls) (writeLayer stack layer prefs) =
      some [(layer, u)]) ∧
    ((name, value) ∈ u ↔ w ≠ value) := by
  refine ⟨writeLayer_writeCalls_eq stack layer prefs u hlo hhi hu, ?_⟩
  have hscan : scanLower stack name (layer - 1) = some w :=
    scanLower_eq_of_nearest stack name w (layer - 1) j (by omega) hjdef
      (fun k hk1 hk2 => hnearest k hk1 (by omega))
  rw [computeUnique_mem stack layer name value prefs u hu]
  constructor
  · rintro ⟨_, w2, hs2, hne⟩
    rw [hscan] at hs2
    injection hs2 with hs2
    rw [hs2]
    exact hne
  · intro hne
    exact ⟨hmem, w, hscan, hne⟩

/-- Witness for C1: stack [base storing theme = light, empty user layer],
writing theme = dark at layer 1; the nearest (only) lower layer stores a
structurally different value, so the pair is in the written set. -/
theorem writeLayer_includes_iff_nearest_lower_differs_witness :
    (Option.map (fun o => o.writeCalls)
      (writeLayer [⟨[("theme", JsonValue.str "light")], none, none, none⟩, emptyLayer] 1
        [("theme", JsonValue.str "dark")]) =
      some [(1, [("theme", JsonValue.str "dark")])]) ∧
    (("theme", JsonValue.str "dark") ∈ [("theme", JsonValue.str "dark")] ↔
      JsonValue.str "light" ≠ JsonValue.str "dark") :=
  writeLayer_includes_iff_nearest_lower_differs
    [⟨[("theme", JsonValue.str "light")], none, none, none⟩, emptyLayer] 1 0
    [("theme", JsonValue.str "dark")] [("theme", JsonValue.str "dark")]
    "theme" (JsonValue.str "dark") (JsonValue.str "light")
    (by decide) (by decide) (by decide) (by decide) (by decide)
    (fun k hk1 hk2 => absurd hk1 (by omega)) (by decide)

/-- Claim C2 (code bug): when no lower layer defines the proposed key, the
loop comment promises the pair is recorded in the target layer, but the
descending size_t scan never finds the key, wraps below zero and reads the
layer vector out of bounds, so writeLayer never reaches writePrefs and the
target layer never stores the pair. -/
theorem writeLayer_key_undefined_below_never_writes :
    writeLayer [⟨[("editor_font", JsonValue.str "mono")], none, none, none⟩, emptyLayer]
      1 [("theme", JsonValue.str "dark")] = none := by
  decide

/-- Claim C3 (code bug): the scan does stop at the first defining layer,
but when no layer at indices layerIndex - 1 down to 0 defines the key it
does not terminate after layer 0: the unsigned counter wraps past zero and
the next read indexes outside the stack.  At this input the scan over
layers 1 and 0 hits the wraparound marker and writeLayer diverges. -/
theorem scanLower_wraps_past_layer_zero :
    scanLower [emptyLayer, emptyLayer, emptyLayer] "theme" 1 = none ∧
    writeLayer [emptyLayer, emptyLayer, emptyLayer] 2
      [("theme", JsonValue.bool true)] = none := by
  decide

/-- Claim C4: writeLayer with target index 0 or at/above the stack size
fails with InvalidArgument before reading any layer, issues no writePrefs
call, and returns the stack exactly as it was. -/
theorem writeLayer_invalid_index (stack : List PrefLayer) (layer : Nat)
    (prefs : List (String × JsonValue))
    (h : layer = 0 ∨ stack.length ≤ layer) :
    writeLayer stack layer prefs =
      some ⟨Except.error PrefError.invalidArgument, stack, []⟩ := by
  simp only [writeLayer]
  rw [if_pos ?_]
  cases h with
  | inl h0 => exact Or.inr (by omega)
  | inr hge => exact Or.inl hge

/-- Witness for C4: writing to the immutable base layer index 0 fails with
InvalidArgument and leaves the one-layer stack untouched. -/
theorem writeLayer_invalid_index_witness :
    writeLayer [emptyLayer] 0 [("theme", JsonValue.null)] =
      some ⟨Except.error PrefError.invalidArgument, [emptyLayer], []⟩ :=
  writeLayer_invalid_index [emptyLayer] 0 [("theme", JsonValue.null)] (Or.inl rfl)

/-- Claim C5: initialization fails exactly when layer-stack construction
fails (and with that same error); per-layer read and validation failures are
gathered into the log while the sweeps continue over every layer, and
readLayers invokes readPrefs on every layer in stack order yet always
reports success. -/
theorem initializePrefs_best_effort :
    (∀ e : PrefError, initializePrefs (Except.error e) = Except.error e) ∧
    (∀ stack : List PrefLayer,
      initializePrefs (Except.ok stack) =
        Except.ok ⟨stack, stack.filterMap (fun l => l.readError) ++
          stack.filterMap (fun l => l.validateError)⟩) ∧
    (∀ stack : List PrefLayer,
      (readLayers stack).result = Except.ok () ∧
      (readLayers stack).readCalls = List.range stack.length ∧
      (readLayers stack).logged = stack.filterMap (fun l => l.readError)) := by
  refine ⟨fun e => rfl, ?_, ?_⟩
  · intro stack
    have h := (readLayersAux_spec stack 0).2
    have hbase : initializePrefs (Except.ok stack) =
        Except.ok ⟨stack, (readLayersAux stack 0).2 ++ validateSweep stack⟩ := rfl
    rw [hbase, h]
    rfl
  · intro stack
    have h := readLayersAux_spec stack 0
    refine ⟨rfl, ?_, h.2⟩
    rw [List.range_eq_range']
    exact h.1

/-- Claim C6: when the target layer writePrefs call fails, writeLayer
returns exactly that error; the stack is returned unchanged and the single
writePrefs call on the target layer is the only mutation attempted. -/
theorem writeLayer_propagates_write_error
    (stack : List PrefLayer) (layer : Nat)
    (prefs u : List (String × JsonValue)) (e : PrefError)
    (hlo : 1 ≤ layer) (hhi : layer < stack.length)
    (hu : computeUnique stack layer prefs = some u)
    (he : (stack.getD layer emptyLayer).writeError = some e) :
    writeLayer stack layer prefs = some ⟨Except.error e, stack, [(layer, u)]⟩ :=
  writeLayer_err_eq stack layer prefs u e hlo hhi hu he

/-- Witness for C6: the user layer backend fails with an I/O error; the
error comes back verbatim and both layers keep their contents. -/
theorem writeLayer_propagates_write_error_witness :
    writeLayer [⟨[("theme", JsonValue.str "light")], none, none, none⟩,
        ⟨[], none, none, some (PrefError.ioError "disk")⟩] 1
      [("theme", JsonValue.str "dark")] =
      some ⟨Except.error (PrefError.ioError "disk"),
        [⟨[("theme", JsonValue.str "light")], none, none, none⟩,
          ⟨[], none, none, some (PrefError.ioError "disk")⟩],
        [(1, [("theme", JsonValue.str "dark")])]⟩ :=
  writeLayer_propagates_write_error
    [⟨[("theme", JsonValue.str "light")], none, none, none⟩,
      ⟨[], none, none, some (PrefError.ioError "disk")⟩] 1
    [("theme", JsonValue.str "dark")] [("theme", JsonValue.str "dark")]
    (PrefError.ioError "disk") (by decide) (by decide) (by decide) (by decide)

/-- Claim C7: allLayers yields exactly one snapshot document per layer, the
allPrefs of that layer, in ascending stack-index order, and as a pure read
it leaves the stack unchanged. -/
theorem allLayers_ordered_snapshots (stack : List PrefLayer) :
    allLayers stack = stack.map PrefLayer.allPrefs ∧
    allLayersSt stack = (stack.map PrefLayer.allPrefs, stack) := by
  have h : allLayers stack = stack.map PrefLayer.allPrefs := by
    have := foldl_push_allPrefs stack []
    simpa [allLayers] using this
  exact ⟨h, by rw [allLayersSt, h]⟩

/-- Claim C8: writeLayer is idempotent: when a call with a valid index and a
defined scan succeeds, repeating the identical call succeeds again, computes
the same unique set from the unchanged lower layers, and leaves every layer
with the same stored content as after the first call. -/
theorem writeLayer_idempotent
    (stack : List PrefLayer) (layer : Nat)
    (prefs u : List (String × JsonValue))
    (hlo : 1 ≤ layer) (hhi : layer < stack.length)
    (hnd : (prefs.map Prod.fst).Nodup)
    (hu : computeUnique stack layer prefs = some u)
    (hw : (stack.getD layer emptyLayer).writeError = none) :
    ∃ out1 out2 : WriteOutcome,
      writeLayer stack layer prefs = some out1 ∧
      out1.result = Except.ok () ∧
      writeLayer out1.layers layer prefs = some out2 ∧
      out2.result = Except.ok () ∧
      out2.layers = out1.layers := by
  have h1 := writeLayer_ok_eq stack layer prefs u hlo hhi hu hw
  set tgt := stack.getD layer emptyLayer with htgt
  set tgt1 : PrefLayer := { tgt with content := mergePrefs tgt.content u } with htgt1
  set stack1 := stack.set layer tgt1 with hstack1
  have hlen1 : stack1.length = stack.length := List.length_set stack layer tgt1
  have hhi1 : layer < stack1.length := by rw [hlen1]; exact hhi
  have hlow : ∀ i, i < layer → stack1.get? i = stack.get? i :=
    fun i hi => get?_set_ne_of_lt stack layer i tgt1 (by omega)
  have hcu1 : computeUnique stack1 layer prefs = some u := by
    rw [computeUnique_congr stack1 stack layer hlo hlow prefs]
    exact hu
  have hgetD1 : stack1.getD layer emptyLayer = tgt1 := getD_set_self stack layer tgt1 hhi
  have hw1 : (stack1.getD layer emptyLayer).writeError = none := by
    rw [hgetD1]
    exact hw
  have h2 := writeLayer_ok_eq stack1 layer prefs u hlo hhi1 hcu1 hw1
  have hund : (u.map Prod.fst).Nodup :=
    hnd.sublist ((computeUnique_sublist stack layer prefs u hu).map Prod.fst)
  have hmerge : mergePrefs tgt1.content u = tgt1.content := by
    apply mergePrefs_eq_of_lookup
    intro p hp
    exact lookupPref_mergePrefs_mem u p.1 p.2 tgt.content hund hp
  rw [hgetD1, hmerge] at h2
  refine ⟨_, _, h1, rfl, h2, rfl, ?_⟩
  show (stack.set layer tgt1).set layer { tgt1 with content := tgt1.content } = stack1
  rw [List.set_set]

/-- Witness for C8: writing theme = dark over a base storing theme = light
twice in a row leaves the two-layer stack identical to a single write. -/
theorem writeLayer_idempotent_witness :
    ∃ out1 out2 : WriteOutcome,
      writeLayer [⟨[("theme", JsonValue.str "light")], none, none, none⟩, emptyLayer] 1
        [("theme", JsonValue.str "dark")] = some out1 ∧
      out1.result = Except.ok () ∧
      writeLayer out1.layers 1 [("theme", JsonValue.str "dark")] = some out2 ∧
      out2.result = Except.ok () ∧
      out2.layers = out1.layers :=
  writeLayer_idempotent
    [⟨[("theme", JsonValue.str "light")], none, none, none⟩, emptyLayer] 1
    [("theme", JsonValue.str "dark")] [("theme", JsonValue.str "dark")]
    (by decide) (by decide) (by decide) (by decide) (by decide)

/-- Claim C9: the minimized set depends only on proposedPrefs and the layers
strictly below the target index: stacks that agree below that index yield
the same computed unique set and writeLayer issues the same writePrefs
payload, however the target layer (or anything above) differs. -/
theorem writeLayer_unique_set_target_independent
    (stack1 stack2 : List PrefLayer) (layer : Nat)
    (prefs : List (String × JsonValue))
    (hlen : stack1.length = stack2.length)
    (hlo : 1 ≤ layer) (hhi : layer < stack1.length)
    (hlow : ∀ i, i < layer → stack1.get? i = stack2.get? i) :
    computeUnique stack1 layer prefs = computeUnique stack2 layer prefs ∧
    Option.map (fun o => o.writeCalls) (writeLayer stack1 layer prefs) =
      Option.map (fun o => o.writeCalls) (writeLayer stack2 layer prefs) := by
  have hcu := computeUnique_congr stack1 stack2 layer hlo hlow prefs
  have hhi2 : layer < stack2.length := by rw [← hlen]; exact hhi
  refine ⟨hcu, ?_⟩
  cases hu : computeUnique stack1 layer prefs with
  | none =>
    have hu2 : computeUnique stack2 layer prefs = none := by rw [← hcu]; exact hu
    rw [writeLayer_none_eq stack1 layer prefs hlo hhi hu,
      writeLayer_none_eq stack2 layer prefs hlo hhi2 hu2]
  | some u =>
    have hu2 : computeUnique stack2 layer prefs = some u := by rw [← hcu]; exact hu
    rw [writeLayer_writeCalls_eq stack1 layer prefs u hlo hhi hu,
      writeLayer_writeCalls_eq stack2 layer prefs u hlo hhi2 hu2]

/-- Witness for C9: same base layer below, radically different target layers
(one empty and healthy, one full and failing): the computed set and the
writePrefs payload coincide. -/
theorem writeLayer_unique_set_target_independent_witness :
    computeUnique [⟨[("theme", JsonValue.str "light")], none, none, none⟩, emptyLayer] 1
        [("theme", JsonValue.str "dark")] =
      computeUnique [⟨[("theme", JsonValue.str "light")], none, none, none⟩,
        ⟨[("theme", JsonValue.str "dark"), ("junk", JsonValue.null)], none, none,
          some (PrefError.ioError "disk")⟩] 1 [("theme", JsonValue.str "dark")] ∧
    Option.map (fun o => o.writeCalls)
        (writeLayer [⟨[("theme", JsonValue.str "light")], none, none, none⟩, emptyLayer] 1
          [("theme", JsonValue.str "dark")]) =
      Option.map (fun o => o.writeCalls)
        (writeLayer [⟨[("theme", JsonValue.str "light")], none, none, none⟩,
          ⟨[("theme", JsonValue.str "dark"), ("junk", JsonValue.null)], none, none,
            some (PrefError.ioError "disk")⟩] 1 [("theme", JsonValue.str "dark")]) :=
  writeLayer_unique_set_target_independent
    [⟨[("theme", JsonValue.str "light")], none, none, none⟩, emptyLayer]
    [⟨[("theme", JsonValue.str "light")], none, none, none⟩,
      ⟨[("theme", JsonValue.str "dark"), ("junk", JsonValue.null)], none, none,
        some (PrefError.ioError "disk")⟩]
    1 [("theme", JsonValue.str "dark")]
    (by decide) (by decide) (by decide)
    (fun i hi => by
      have hi0 : i = 0 := by omega
      rw [hi0]
      rfl)

/-- Claim C10: for a valid index and a defined scan, writeLayer issues
exactly one writePrefs call on the target layer, carrying the minimized set
even when that set is empty, and a failure of that single call is still
surfaced as the result. -/
theorem writeLayer_exactly_one_write_call
    (stack : List PrefLayer) (layer : Nat)
    (prefs u : List (String × JsonValue))
    (hlo : 1 ≤ layer) (hhi : layer < stack.length)
    (hu : computeUnique stack layer prefs = some u) :
    ∃ out : WriteOutcome, writeLayer stack layer prefs = some out ∧
      out.writeCalls = [(layer, u)] ∧
      (∀ e, (stack.getD layer emptyLayer).writeError = some e →
        out.result = Except.error e) := by
  cases hw : (stack.getD layer emptyLayer).writeError with
  | none =>
    refine ⟨_, writeLayer_ok_eq stack layer prefs u hlo hhi hu hw, rfl, ?_⟩
    intro e he
    cases he
  | some e =>
    refine ⟨_, writeLayer_err_eq stack layer prefs u e hlo hhi hu hw, rfl, ?_⟩
    intro e2 he2
    injection he2 with he2
    rw [he2]

/-- Witness for C10: an empty proposal still produces exactly one writePrefs
call, carrying the empty set, on the target layer. -/
theorem writeLayer_exactly_one_write_call_witness :
    ∃ out : WriteOutcome,
      writeLayer [⟨[("theme", JsonValue.str "light")], none, none, none⟩, emptyLayer] 1
        [] = some out ∧
      out.writeCalls = [(1, [])] ∧
      (∀ e, (List.getD [⟨[("theme", JsonValue.str "light")], none, none, none⟩,
          emptyLayer] 1 emptyLayer).writeError = some e →
        out.result = Except.error e) :=
  writeLayer_exactly_one_write_call
    [⟨[("theme", JsonValue.str "light")], none, none, none⟩, emptyLayer] 1 [] []
    (by decide) (by decide) (by decide)
